import Mathlib

/-!
# PizzaGoland: the user CRUD handlers and the echo handler of `main.go`

A shallow embedding of the six HTTP handlers of `main.go`.  The handlers are
translated statement by statement.  What they call in libraries is modelled as
follows.

* `encoding/json`: a request body is represented by what `Decode` does with it
  for the target struct, see `Body`.
* `primitive.ObjectID`: twelve bytes, with `ObjectIDFromHex` and `Hex`.
* the MongoDB collection: the list of stored documents in natural order, with
  the driver calls the handlers issue, following the documented behaviour
  of the server: ids are unique (an insert with a stored id is a duplicate key
  error), `_id` is immutable, and an update or delete that matches no document
  is not an error.  A call may also fail for reasons outside the program
  (connectivity, the five second timeout); this is the field `dbFails` of
  `Env`, and such a call leaves the collection as it was.  Reading a cursor to
  its end may fail as well, the field `cursorFails`.
* a Go slice of users is `nil` or holds elements, see `UserSlice`; the JSON
  encoder writes `null` for the nil slice and an array otherwise.
-/

deriving instance DecidableEq for Except

namespace PizzaGoland

/-! ## primitive.ObjectID -/

/-- The Go type `primitive.ObjectID`, an array of twelve bytes. -/
abbrev ObjectID := { bs : List (Fin 256) // bs.length = 12 }

/-- The Go value `primitive.NilObjectID`: twelve zero bytes. -/
def NilObjectID : ObjectID := ⟨List.replicate 12 0, by simp⟩

/-- Value of one hexadecimal character, as `fromHexChar` of `encoding/hex`:
digits and both letter cases are accepted. -/
def fromHexChar (c : Char) : Option (Fin 16) :=
  if 48 ≤ c.toNat ∧ c.toNat ≤ 57 then some (Fin.ofNat (c.toNat - 48))
  else if 97 ≤ c.toNat ∧ c.toNat ≤ 102 then some (Fin.ofNat (c.toNat - 97 + 10))
  else if 65 ≤ c.toNat ∧ c.toNat ≤ 70 then some (Fin.ofNat (c.toNat - 65 + 10))
  else none

/-- Whether a character is a hexadecimal digit. -/
def isHexChar (c : Char) : Bool := (fromHexChar c).isSome

/-- The function `hex.Decode`: two characters per byte; an odd length or a
character that is not hexadecimal is an error. -/
def hexDecode : List Char → Option (List (Fin 256))
  | [] => some []
  | [_] => none
  | a :: b :: rest =>
    match fromHexChar a, fromHexChar b, hexDecode rest with
    | some hi, some lo, some bs => some (⟨hi.val * 16 + lo.val, by omega⟩ :: bs)
    | _, _, _ => none

/-- Length of a Go string: the number of bytes of its UTF-8 encoding. -/
def goLen (s : String) : Nat := s.utf8ByteSize

/-- The function `primitive.ObjectIDFromHex`: the string must be 24 bytes long
and hexadecimal throughout. -/
def ObjectIDFromHex (s : String) : Except String ObjectID :=
  if goLen s ≠ 24 then .error "ErrInvalidHex"
  else
    match hexDecode s.toList with
    | none => .error "InvalidByteError"
    | some bs => if h : bs.length = 12 then .ok ⟨bs, h⟩ else .error "ErrInvalidHex"

/-- The lower-case hexadecimal digit of a value below sixteen. -/
def hexDigit (n : Fin 16) : Char :=
  if n.val < 10 then Char.ofNat (48 + n.val) else Char.ofNat (97 + (n.val - 10))

/-- The function `hex.EncodeToString` on a byte list. -/
def hexEncode : List (Fin 256) → List Char
  | [] => []
  | b :: bs => hexDigit (Fin.ofNat (b.val / 16)) :: hexDigit (Fin.ofNat (b.val % 16)) :: hexEncode bs

/-- The method `ObjectID.Hex`: the 24 character lower-case form of an id. -/
def ObjectID.Hex (id : ObjectID) : String := String.mk (hexEncode id.val)

/-! ## The structs of `main.go` -/

/-- The struct `User`.  `Age` is a Go `int`; the handlers do no arithmetic on
it, so it is kept as an integer. -/
structure User where
  ID : ObjectID
  Name : String
  Age : Int
deriving DecidableEq

/-- The struct `RequestData`. -/
structure RequestData where
  Message : String
deriving DecidableEq

/-- The struct `ResponseData`. -/
structure ResponseData where
  Status : String
  Message : String
deriving DecidableEq

/-! ## Requests and responses -/

/-- What `json.NewDecoder(r.Body).Decode(&v)` does with a request body for a
target struct whose JSON members are described by `F`: either it reports an
error (`malformed`: the body is not JSON, or a member has the wrong JSON type),
or it assigns the members the body carries and leaves every other field of
`v` untouched (`members`, where an absent member is `none`). -/
inductive Body (F : Type) where
  | malformed
  | members (m : F)
deriving DecidableEq

/-- The JSON members of a `User` body: `id`, `name`, `age`. -/
structure UserMembers where
  id : Option ObjectID
  name : Option String
  age : Option Int
deriving DecidableEq

/-- The JSON member of a `RequestData` body: `message`. -/
structure RequestDataMembers where
  message : Option String
deriving DecidableEq

/-- Decoding into a `User` variable holding `v`: the members present are
assigned, the others keep the value of `v`. -/
def decodeUser (v : User) : Body UserMembers → Except String User
  | .malformed => .error "json: cannot decode"
  | .members m =>
    .ok { ID := m.id.getD v.ID, Name := m.name.getD v.Name, Age := m.age.getD v.Age }

/-- Decoding into a `RequestData` variable holding `v`. -/
def decodeRequestData (v : RequestData) : Body RequestDataMembers → Except String RequestData
  | .malformed => .error "json: cannot decode"
  | .members m => .ok { Message := m.message.getD v.Message }

/-- The zero value of `User`, the content of `var user User`. -/
def User.zero : User := { ID := NilObjectID, Name := "", Age := 0 }

/-- The zero value of `RequestData`. -/
def RequestData.zero : RequestData := { Message := "" }

/-- The parts of `*http.Request` the handlers read: the method, the value of
`r.URL.Query().Get("id")` (the empty string when the parameter is missing) and
the body. -/
structure Request (F : Type) where
  Method : String
  id : String
  Body : Body F

/-- A Go value of type `[]User`: the nil slice, or a slice with its elements
(possibly none). -/
inductive UserSlice where
  | nil
  | elems (us : List User)
deriving DecidableEq

/-- What a handler writes as the response body: a plain text, or the JSON
encoding of an envelope, of a user, of an id, a JSON array of users, or the
JSON value `null`. -/
inductive Payload where
  | text (s : String)
  | envelope (r : ResponseData)
  | user (u : User)
  | users (us : List User)
  | insertedID (id : ObjectID)
  | null
deriving DecidableEq

/-- The call `json.NewEncoder(w).Encode(users)` on a slice of users: the nil
slice is written as `null`, any other slice as an array. -/
def encodeUsers : UserSlice → Payload
  | .nil => .null
  | .elems us => .users us

/-- The response: status code and body. -/
structure Response where
  status : Nat
  body : Payload
deriving DecidableEq

/-- The constant `http.StatusOK`. -/
def StatusOK : Nat := 200

/-- The constant `http.StatusCreated`. -/
def StatusCreated : Nat := 201

/-- The constant `http.StatusBadRequest`. -/
def StatusBadRequest : Nat := 400

/-- The constant `http.StatusNotFound`. -/
def StatusNotFound : Nat := 404

/-- The constant `http.StatusMethodNotAllowed`. -/
def StatusMethodNotAllowed : Nat := 405

/-- The constant `http.StatusInternalServerError`. -/
def StatusInternalServerError : Nat := 500

/-! ## The collection and the driver calls -/

/-- The stored collection `users`: its documents in natural order. -/
abbrev Collection := List User

/-- MongoDB keeps a unique index on `_id`: no two documents share an id. -/
def Collection.Valid (coll : Collection) : Prop := (coll.map User.ID).Nodup

instance (coll : Collection) : Decidable (Collection.Valid coll) := by
  unfold Collection.Valid; infer_instance

/-- What lies outside the program during one request: whether the database
call fails (server unreachable, timeout), the id `primitive.NewObjectID` would
generate, and whether reading an open cursor to its end fails. -/
structure Env where
  dbFails : Bool
  newObjectID : ObjectID
  cursorFails : Bool

/-- The errors of a driver call. -/
inductive DbError where
  | ErrNoDocuments
  | duplicateKey
  | immutableField
  | unavailable
deriving DecidableEq

/-- The driver calls a handler issues. -/
inductive DbCall where
  | Find
  | All
  | InsertOne (doc : User)
  | FindOne (id : ObjectID)
  | UpdateOne (id : ObjectID) (set : User)
  | DeleteOne (id : ObjectID)
deriving DecidableEq

/-- The `_id` element of a marshalled `User`: the tag `bson:"_id,omitempty"`
omits a zero id. -/
def bsonID (u : User) : Option ObjectID :=
  if u.ID = NilObjectID then none else some u.ID

/-- A cursor over the documents a query selected. -/
abbrev Cursor := List User

/-- The call `collection.Find(ctx, bson.D{})`: a cursor over all documents. -/
def Find (env : Env) (coll : Collection) : Except DbError Cursor :=
  if env.dbFails then .error .unavailable else .ok coll

/-- The slice expression `s[0:0]`: the nil slice stays nil. -/
def UserSlice.empty : UserSlice → UserSlice
  | .nil => .nil
  | .elems _ => .elems []

/-- The call `cursor.All(ctx, &results)`: the documents of the cursor are
stored from index 0 on and the slice is cut to their number, so that a cursor
without documents leaves a nil slice nil. -/
def Cursor.All (env : Env) (cursor : Cursor) (results : UserSlice) : Except DbError UserSlice :=
  if env.cursorFails then .error .unavailable
  else
    match cursor with
    | [] => .ok results.empty
    | d :: ds => .ok (.elems (d :: ds))

/-- The call `collection.InsertOne(ctx, user)`: a document without `_id` gets a
generated one; an id already stored is a duplicate key error.  The result is
`InsertedID` and the collection with the document appended. -/
def InsertOne (env : Env) (coll : Collection) (user : User) :
    Except DbError (ObjectID × Collection) :=
  if env.dbFails then .error .unavailable
  else
    let id := (bsonID user).getD env.newObjectID
    if coll.any (fun d => decide (d.ID = id)) then .error .duplicateKey
    else .ok (id, coll ++ [{ ID := id, Name := user.Name, Age := user.Age }])

/-- The call `collection.FindOne(ctx, bson.M{"_id": objectID}).Decode(&user)`. -/
def FindOne (env : Env) (coll : Collection) (objectID : ObjectID) : Except DbError User :=
  if env.dbFails then .error .unavailable
  else
    match coll.find? (fun d => decide (d.ID = objectID)) with
    | none => .error .ErrNoDocuments
    | some d => .ok d

/-- The operator `$set` with a marshalled `User` applied to the first document
whose id is `objectID`: `name` and `age` are overwritten. -/
def setFirst (objectID : ObjectID) (set : User) : Collection → Collection
  | [] => []
  | d :: ds =>
    if d.ID = objectID then { ID := d.ID, Name := set.Name, Age := set.Age } :: ds
    else d :: setFirst objectID set ds

/-- The call `collection.UpdateOne(ctx, bson.M{"_id": objectID}, bson.M{"$set": set})`:
no matching document is not an error; on a matching document a `$set` that
carries a different `_id` is rejected (the field is immutable). -/
def UpdateOne (env : Env) (coll : Collection) (objectID : ObjectID) (set : User) :
    Except DbError Collection :=
  if env.dbFails then .error .unavailable
  else if coll.any (fun d => decide (d.ID = objectID)) then
    match bsonID set with
    | some j =>
      if j = objectID then .ok (setFirst objectID set coll) else .error .immutableField
    | none => .ok (setFirst objectID set coll)
  else .ok coll

/-- The call `collection.DeleteOne(ctx, bson.M{"_id": objectID})`: the first
matching document is removed; no matching document is not an error. -/
def DeleteOne (env : Env) (coll : Collection) (objectID : ObjectID) :
    Except DbError Collection :=
  if env.dbFails then .error .unavailable
  else .ok (coll.eraseP (fun d => decide (d.ID = objectID)))

/-! ## The handlers -/

/-- The result of serving one request: the response, the collection afterwards,
the driver calls issued and the lines printed. -/
structure Outcome where
  resp : Response
  coll : Collection
  calls : List DbCall
  stdout : List String

/-- The function `http.Error`: the status code with a plain text line. -/
def httpError (msg : String) (code : Nat) : Response :=
  { status := code, body := .text (msg ++ "\n") }

/-- The function `sendResponse`. -/
def sendResponse (response : ResponseData) (statusCode : Nat) : Response :=
  { status := statusCode, body := .envelope response }

/-- The handler `getUsersHandler`. -/
def getUsersHandler {F : Type} (env : Env) (coll : Collection) (_r : Request F) : Outcome :=
  match Find env coll with
  | .error _ =>
    { resp := httpError "Ошибка при чтении данных из MongoDB" StatusInternalServerError,
      coll := coll, calls := [.Find], stdout := [] }
  | .ok cursor =>
    let users : UserSlice := .nil
    match Cursor.All env cursor users with
    | .error _ =>
      { resp := httpError "Ошибка при обработке данных из MongoDB" StatusInternalServerError,
        coll := coll, calls := [.Find, .All], stdout := [] }
    | .ok users =>
      { resp := { status := StatusOK, body := encodeUsers users },
        coll := coll, calls := [.Find, .All], stdout := [] }

/-- The handler `addUserHandler`. -/
def addUserHandler (env : Env) (coll : Collection) (r : Request UserMembers) : Outcome :=
  match decodeUser User.zero r.Body with
  | .error _ =>
    { resp := httpError "Некорректный формат запроса" StatusBadRequest,
      coll := coll, calls := [], stdout := [] }
  | .ok user =>
    match InsertOne env coll user with
    | .error _ =>
      { resp := httpError "Ошибка при добавлении пользователя в MongoDB" StatusInternalServerError,
        coll := coll, calls := [.InsertOne user], stdout := [] }
    | .ok (insertedID, coll') =>
      { resp := { status := StatusCreated, body := .insertedID insertedID },
        coll := coll', calls := [.InsertOne user], stdout := [] }

/-- The handler `getUserByIDHandler`. -/
def getUserByIDHandler {F : Type} (env : Env) (coll : Collection) (r : Request F) : Outcome :=
  let id := r.id
  if id = "" then
    { resp := httpError "ID не указан" StatusBadRequest, coll := coll, calls := [], stdout := [] }
  else
    match ObjectIDFromHex id with
    | .error _ =>
      { resp := httpError "Некорректный ID" StatusBadRequest,
        coll := coll, calls := [], stdout := [] }
    | .ok objectID =>
      match FindOne env coll objectID with
      | .error .ErrNoDocuments =>
        { resp := httpError "Пользователь не найден" StatusNotFound,
          coll := coll, calls := [.FindOne objectID], stdout := [] }
      | .error _ =>
        { resp := httpError "Ошибка при получении пользователя" StatusInternalServerError,
          coll := coll, calls := [.FindOne objectID], stdout := [] }
      | .ok user =>
        { resp := { status := StatusOK, body := .user user },
          coll := coll, calls := [.FindOne objectID], stdout := [] }

/-- The handler `updateUserHandler`. -/
def updateUserHandler (env : Env) (coll : Collection) (r : Request UserMembers) : Outcome :=
  let id := r.id
  if id = "" then
    { resp := httpError "ID не указан" StatusBadRequest, coll := coll, calls := [], stdout := [] }
  else
    match ObjectIDFromHex id with
    | .error _ =>
      { resp := httpError "Некорректный ID" StatusBadRequest,
        coll := coll, calls := [], stdout := [] }
    | .ok objectID =>
      match decodeUser User.zero r.Body with
      | .error _ =>
        { resp := httpError "Некорректный формат запроса" StatusBadRequest,
          coll := coll, calls := [], stdout := [] }
      | .ok updateData =>
        match UpdateOne env coll objectID updateData with
        | .error _ =>
          { resp := httpError "Ошибка при обновлении пользователя" StatusInternalServerError,
            coll := coll, calls := [.UpdateOne objectID updateData], stdout := [] }
        | .ok coll' =>
          { resp := { status := StatusOK, body := .text "Пользователь обновлен" },
            coll := coll', calls := [.UpdateOne objectID updateData], stdout := [] }

/-- The handler `deleteUserHandler`. -/
def deleteUserHandler {F : Type} (env : Env) (coll : Collection) (r : Request F) : Outcome :=
  let id := r.id
  if id = "" then
    { resp := httpError "ID не указан" StatusBadRequest, coll := coll, calls := [], stdout := [] }
  else
    match ObjectIDFromHex id with
    | .error _ =>
      { resp := httpError "Некорректный ID" StatusBadRequest,
        coll := coll, calls := [], stdout := [] }
    | .ok objectID =>
      match DeleteOne env coll objectID with
      | .error _ =>
        { resp := httpError "Ошибка при удалении пользователя" StatusInternalServerError,
          coll := coll, calls := [.DeleteOne objectID], stdout := [] }
      | .ok coll' =>
        { resp := { status := StatusOK, body := .text "Пользователь удален" },
          coll := coll', calls := [.DeleteOne objectID], stdout := [] }

/-- The handler `handler` of the route `/json`. -/
def handler (_env : Env) (coll : Collection) (r : Request RequestDataMembers) : Outcome :=
  if r.Method = "POST" then
    match decodeRequestData RequestData.zero r.Body with
    | .error _ =>
      { resp := sendResponse { Status := "fail", Message := "Некорректное JSON-сообщение" }
          StatusBadRequest,
        coll := coll, calls := [], stdout := [] }
    | .ok requestData =>
      if requestData.Message = "" then
        { resp := sendResponse { Status := "fail", Message := "Некорректное JSON-сообщение" }
            StatusBadRequest,
          coll := coll, calls := [], stdout := [] }
      else
        { resp := sendResponse { Status := "success", Message := "Данные успешно приняты" }
            StatusOK,
          coll := coll, calls := [],
          stdout := ["Получено сообщение: " ++ requestData.Message] }
  else if r.Method = "GET" then
    { resp := sendResponse { Status := "success", Message := "Используйте POST для отправки данных" }
        StatusOK,
      coll := coll, calls := [], stdout := [] }
  else
    { resp := sendResponse { Status := "fail", Message := "Метод не поддерживается" }
        StatusMethodNotAllowed,
      coll := coll, calls := [], stdout := [] }

/-! ## Sequences of requests -/

/-- A request together with its route and what lies outside the program while
it is served. -/
inductive Req where
  | list (env : Env) (r : Request Unit)
  | add (env : Env) (r : Request UserMembers)
  | get (env : Env) (r : Request Unit)
  | update (env : Env) (r : Request UserMembers)
  | delete (env : Env) (r : Request Unit)
  | echo (env : Env) (r : Request RequestDataMembers)

/-- Routing as registered in `main`: each path has its handler. -/
def Req.serve (coll : Collection) : Req → Outcome
  | .list env r => getUsersHandler env coll r
  | .add env r => addUserHandler env coll r
  | .get env r => getUserByIDHandler env coll r
  | .update env r => updateUserHandler env coll r
  | .delete env r => deleteUserHandler env coll r
  | .echo env r => handler env coll r

/-- The collection after serving the requests in turn. -/
def serveAll (coll : Collection) (qs : List Req) : Collection :=
  qs.foldl (fun c q => (q.serve c).coll) coll

/-- The collections the service can reach from the empty collection. -/
def Reachable (coll : Collection) : Prop := ∃ qs, serveAll [] qs = coll

/-- What a client knows after a successful add or delete: the user it added,
with the identifier the response returned, or the id it deleted. -/
inductive Event where
  | added (u : User)
  | deleted (id : ObjectID)
deriving DecidableEq

/-- The event of a successful add (201 with an identifier) or a successful
delete (200); any other exchange has none. -/
def Req.event (q : Req) (o : Outcome) : Option Event :=
  match q with
  | .add _ r =>
    match decodeUser User.zero r.Body, o.resp.body with
    | .ok payload, .insertedID i =>
      if o.resp.status = StatusCreated then
        some (.added { ID := i, Name := payload.Name, Age := payload.Age })
      else none
    | _, _ => none
  | .delete _ r =>
    match ObjectIDFromHex r.id with
    | .ok i => if o.resp.status = StatusOK then some (.deleted i) else none
    | .error _ => none
  | _ => none

/-- A session of successful add and delete requests: the collection it ends in
and its events, or `none` as soon as one exchange is not a successful add or
delete. -/
def session : Collection → List Req → Option (Collection × List Event)
  | coll, [] => some (coll, [])
  | coll, q :: qs =>
    match q.event (q.serve coll) with
    | none => none
    | some e =>
      match session (q.serve coll).coll qs with
      | none => none
      | some (c, es) => some (c, e :: es)

/-- The user `u` was added and not subsequently deleted in the events `es`. -/
def Survives (es : List Event) (u : User) : Prop :=
  ∃ before after, es = before ++ Event.added u :: after ∧ Event.deleted u.ID ∉ after

/-- A well-formed id string: exactly 24 hexadecimal characters. -/
def WellFormedID (s : String) : Prop :=
  s.length = 24 ∧ ∀ c ∈ s.toList, isHexChar c = true

instance (s : String) : Decidable (WellFormedID s) := by
  unfold WellFormedID; infer_instance

/-! ## Values used in the examples -/

/-- The id `0102030405060708090aabff`. -/
def idA : ObjectID := ⟨[1, 2, 3, 4, 5, 6, 7, 8, 9, 10, 171, 255], by decide⟩

/-- The id `111111111111111111111111`. -/
def idB : ObjectID := ⟨List.replicate 12 17, by decide⟩

/-- A reachable database that generates `idA` for a new document. -/
def envUp : Env := { dbFails := false, newObjectID := idA, cursorFails := false }

/-- An unreachable database. -/
def envDown : Env := { dbFails := true, newObjectID := idA, cursorFails := false }

/-! ## Identifiers in hexadecimal -/

theorem fromHexChar_hexDigit (n : Fin 16) : fromHexChar (hexDigit n) = some n := by
  revert n; decide

theorem utf8Size_hexDigit (n : Fin 16) : (hexDigit n).utf8Size = 1 := by
  revert n; decide

theorem utf8Size_of_isHexChar (c : Char) (h : isHexChar c = true) : c.utf8Size = 1 := by
  have hc : c.toNat ≤ 102 := by
    unfold isHexChar fromHexChar at h
    split_ifs at h <;> first | omega | simp at h
  unfold Char.utf8Size
  have : c.val ≤ 127 := by
    rw [UInt32.le_def]
    show c.val.toNat ≤ 127
    unfold Char.toNat at hc
    omega
  simp [this]

theorem utf8ByteSize_go_eq_length (l : List Char) (h : ∀ c ∈ l, c.utf8Size = 1) :
    String.utf8ByteSize.go l = l.length := by
  induction l with
  | nil => rfl
  | cons c cs ih =>
    simp only [String.utf8ByteSize.go, List.length_cons]
    rw [ih (fun d hd => h d (List.mem_cons_of_mem _ hd)), h c (List.mem_cons_self _ _)]

theorem goLen_eq_length (s : String) (h : ∀ c ∈ s.toList, isHexChar c = true) :
    goLen s = s.length := by
  cases s with
  | mk l =>
    show String.utf8ByteSize.go l = l.length
    exact utf8ByteSize_go_eq_length l (fun c hc => utf8Size_of_isHexChar c (h c hc))

theorem hexEncode_length (bs : List (Fin 256)) : (hexEncode bs).length = 2 * bs.length := by
  induction bs with
  | nil => rfl
  | cons b bs ih => simp [hexEncode, ih]; omega

theorem hexDecode_hexEncode (bs : List (Fin 256)) : hexDecode (hexEncode bs) = some bs := by
  induction bs with
  | nil => rfl
  | cons b bs ih =>
    simp only [hexEncode, hexDecode, fromHexChar_hexDigit, ih]
    congr 2
    apply Fin.ext
    simp [Fin.ofNat]
    omega

theorem isHexChar_hexEncode (bs : List (Fin 256)) : ∀ c ∈ hexEncode bs, isHexChar c = true := by
  induction bs with
  | nil => simp [hexEncode]
  | cons b bs ih =>
    intro c hc
    simp only [hexEncode, List.mem_cons] at hc
    rcases hc with rfl | rfl | hc
    · simp [isHexChar, fromHexChar_hexDigit]
    · simp [isHexChar, fromHexChar_hexDigit]
    · exact ih c hc

/-- Parsing the hexadecimal form of an id gives the id back. -/
theorem ObjectIDFromHex_Hex (id : ObjectID) : ObjectIDFromHex id.Hex = .ok id := by
  obtain ⟨bs, hbs⟩ := id
  have hlen : goLen (ObjectID.Hex ⟨bs, hbs⟩) = 24 := by
    rw [goLen_eq_length _ (by simpa [ObjectID.Hex] using isHexChar_hexEncode bs)]
    simp [ObjectID.Hex, String.length, hexEncode_length, hbs]
  unfold ObjectIDFromHex
  simp only [hlen, ne_eq, not_true_eq_false, if_false]
  simp [ObjectID.Hex, hexDecode_hexEncode, hbs]

theorem hexDecode_some : ∀ (l : List Char) (bs : List (Fin 256)), hexDecode l = some bs →
    l.length = 2 * bs.length ∧ ∀ c ∈ l, isHexChar c = true
  | [], bs, h => by
    simp [hexDecode] at h; subst h; simp
  | [_], bs, h => by simp [hexDecode] at h
  | a :: b :: rest, bs, h => by
    simp only [hexDecode] at h
    rcases ha : fromHexChar a with _ | hi <;> rcases hb : fromHexChar b with _ | lo <;>
      rcases hr : hexDecode rest with _ | bs' <;> simp only [ha, hb, hr] at h <;>
      first | (cases h; done) | skip
    simp only [Option.some.injEq] at h
    subst h
    obtain ⟨h1, h2⟩ := hexDecode_some rest bs' hr
    refine ⟨by simp only [List.length_cons, h1]; omega, ?_⟩
    intro c hc
    simp only [List.mem_cons] at hc
    rcases hc with rfl | rfl | hc
    · simp [isHexChar, ha]
    · simp [isHexChar, hb]
    · exact h2 c hc

theorem hexDecode_of_hex (l : List Char) (n : Nat) (hl : l.length = 2 * n)
    (h : ∀ c ∈ l, isHexChar c = true) : ∃ bs, hexDecode l = some bs ∧ bs.length = n := by
  induction n generalizing l with
  | zero =>
    have : l = [] := List.eq_nil_of_length_eq_zero (by omega)
    subst this; exact ⟨[], rfl, rfl⟩
  | succ n ih =>
    match l, hl with
    | a :: b :: rest, hl =>
      have hr : rest.length = 2 * n := by simp only [List.length_cons] at hl; omega
      obtain ⟨bs, hbs, hlen⟩ := ih rest hr (fun c hc => h c (by simp [hc]))
      have ha := h a (by simp)
      have hb := h b (by simp)
      unfold isHexChar at ha hb
      obtain ⟨hi, hhi⟩ := Option.isSome_iff_exists.mp ha
      obtain ⟨lo, hlo⟩ := Option.isSome_iff_exists.mp hb
      refine ⟨⟨hi.val * 16 + lo.val, by omega⟩ :: bs, ?_, by simp [hlen]⟩
      simp only [hexDecode, hhi, hlo, hbs]

/-- The strings `ObjectIDFromHex` accepts are those of 24 hexadecimal characters. -/
theorem ObjectIDFromHex_ok_iff (s : String) :
    (∃ id, ObjectIDFromHex s = .ok id) ↔ s.length = 24 ∧ ∀ c ∈ s.toList, isHexChar c = true := by
  obtain ⟨l⟩ := s
  constructor
  · rintro ⟨id, h⟩
    unfold ObjectIDFromHex at h
    split_ifs at h with hlen
    split at h
    · cases h
    · next bs hbs =>
      obtain ⟨h1, h2⟩ := hexDecode_some _ _ hbs
      split_ifs at h with h12
      refine ⟨?_, h2⟩
      show l.length = 24
      have h1' : l.length = 2 * bs.length := h1
      omega
  · rintro ⟨hlen, hhex⟩
    have hlen' : l.length = 2 * 12 := hlen
    obtain ⟨bs, hbs, hl⟩ := hexDecode_of_hex l 12 hlen' hhex
    refine ⟨⟨bs, hl⟩, ?_⟩
    have hbs' : hexDecode (String.mk l).toList = some bs := hbs
    unfold ObjectIDFromHex
    rw [goLen_eq_length _ hhex, hlen]
    simp only [ne_eq, not_true_eq_false, if_false, hbs', hl, dite_true]

/-! ## The echo handler -/

/-- C1: the echo handler answers by method and body: POST with a decodable body
whose message is not empty gives 200 "success"; POST with an undecodable body
or an empty message (as for the body without members) gives 400 "fail"; GET
gives 200 "success" whatever the body; any other method gives 405 "fail".  It
never issues a driver call and leaves the collection as it was. -/
theorem handler_contract (env : Env) (coll : Collection) (r : Request RequestDataMembers) :
    (r.Method = "POST" →
      (∀ d, decodeRequestData RequestData.zero r.Body = .ok d → d.Message ≠ "" →
        (handler env coll r).resp.status = 200 ∧
        ∃ msg, (handler env coll r).resp.body = .envelope { Status := "success", Message := msg }) ∧
      ((r.Body = .malformed ∨ decodeRequestData RequestData.zero r.Body = .ok { Message := "" }) →
        (handler env coll r).resp.status = 400 ∧
        ∃ msg, (handler env coll r).resp.body = .envelope { Status := "fail", Message := msg })) ∧
    (r.Method = "GET" →
      (handler env coll r).resp.status = 200 ∧
      ∃ msg, (handler env coll r).resp.body = .envelope { Status := "success", Message := msg }) ∧
    (r.Method ≠ "POST" → r.Method ≠ "GET" →
      (handler env coll r).resp.status = 405 ∧
      ∃ msg, (handler env coll r).resp.body = .envelope { Status := "fail", Message := msg }) ∧
    (handler env coll r).calls = [] ∧ (handler env coll r).coll = coll := by
  refine ⟨fun hm => ⟨?_, ?_⟩, ?_, ?_, ?_, ?_⟩
  · intro d hd hne
    simp [handler, hm, hd, hne, sendResponse, StatusOK]
  · rintro (hb | hb)
    · simp [handler, hm, hb, decodeRequestData, sendResponse, StatusBadRequest]
    · simp [handler, hm, hb, sendResponse, StatusBadRequest]
  · intro hm
    have : r.Method ≠ "POST" := by rw [hm]; decide
    simp [handler, hm, sendResponse, StatusOK]
  · intro h1 h2
    simp [handler, h1, h2, sendResponse, StatusMethodNotAllowed]
  · unfold handler; split_ifs <;> [skip; rfl; rfl]
    split
    · rfl
    · split_ifs <;> rfl
  · unfold handler; split_ifs <;> [skip; rfl; rfl]
    split
    · rfl
    · split_ifs <;> rfl

/-- The contract of the echo handler on the requests of the specification:
POST with message "hi", POST with a body without members, GET and PATCH. -/
theorem handler_contract_witness :
    (handler envUp [] ⟨"POST", "", .members ⟨some "hi"⟩⟩).resp.status = 200 ∧
    (handler envUp [] ⟨"POST", "", .members ⟨none⟩⟩).resp.status = 400 ∧
    (handler envUp [] ⟨"GET", "", .malformed⟩).resp.status = 200 ∧
    (handler envUp [] ⟨"PATCH", "", .members ⟨some "hi"⟩⟩).resp.status = 405 :=
  ⟨((handler_contract envUp [] ⟨"POST", "", .members ⟨some "hi"⟩⟩).1 rfl).1
      ⟨"hi"⟩ rfl (by decide) |>.1,
   ((handler_contract envUp [] ⟨"POST", "", .members ⟨none⟩⟩).1 rfl).2 (Or.inr rfl) |>.1,
   ((handler_contract envUp [] ⟨"GET", "", .malformed⟩).2.1 rfl).1,
   ((handler_contract envUp [] ⟨"PATCH", "", .members ⟨some "hi"⟩⟩).2.2.1
      (by decide) (by decide)).1⟩

/-! ## Rejected requests -/

theorem ObjectIDFromHex_error_of_not_wellFormed (s : String) (h : ¬ WellFormedID s) :
    ∃ e, ObjectIDFromHex s = .error e := by
  cases hs : ObjectIDFromHex s with
  | error e => exact ⟨e, rfl⟩
  | ok id => exact absurd ((ObjectIDFromHex_ok_iff s).mp ⟨id, hs⟩) h

theorem not_wellFormed_of_goLen (s : String) (h : goLen s ≠ 24) : ¬ WellFormedID s := by
  rintro ⟨hlen, hhex⟩
  exact h (by rw [goLen_eq_length s hhex, hlen])

/-- C2: when the id parameter is missing or empty, or its length (in characters
or in bytes) is not 24, or it has a character that is not hexadecimal, the
handlers for get, update and delete answer 400, issue no driver call and leave
the collection as it was; for update whatever the body is. -/
theorem bad_id_rejected {F : Type} (env : Env) (coll : Collection) (s : String)
    (h : s = "" ∨ s.length ≠ 24 ∨ goLen s ≠ 24 ∨ ∃ c ∈ s.toList, isHexChar c = false)
    (m : String) (b : Body F) (bu : Body UserMembers) :
    ((getUserByIDHandler env coll ⟨m, s, b⟩).resp.status = 400 ∧
      (getUserByIDHandler env coll ⟨m, s, b⟩).calls = [] ∧
      (getUserByIDHandler env coll ⟨m, s, b⟩).coll = coll) ∧
    ((updateUserHandler env coll ⟨m, s, bu⟩).resp.status = 400 ∧
      (updateUserHandler env coll ⟨m, s, bu⟩).calls = [] ∧
      (updateUserHandler env coll ⟨m, s, bu⟩).coll = coll) ∧
    ((deleteUserHandler env coll ⟨m, s, b⟩).resp.status = 400 ∧
      (deleteUserHandler env coll ⟨m, s, b⟩).calls = [] ∧
      (deleteUserHandler env coll ⟨m, s, b⟩).coll = coll) := by
  by_cases he : s = ""
  · subst he
    simp [getUserByIDHandler, updateUserHandler, deleteUserHandler, httpError, StatusBadRequest]
  · have hnw : ¬ WellFormedID s := by
      rcases h with h | h | h | ⟨c, hc, hx⟩
      · exact absurd h he
      · exact fun hw => h hw.1
      · exact not_wellFormed_of_goLen s h
      · intro hw
        rw [hw.2 c hc] at hx
        cases hx
    obtain ⟨e, herr⟩ := ObjectIDFromHex_error_of_not_wellFormed s hnw
    simp [getUserByIDHandler, updateUserHandler, deleteUserHandler, httpError, StatusBadRequest,
      he, herr]

/-- An id one character short is rejected by get, update and delete. -/
theorem bad_id_rejected_witness :
    (getUserByIDHandler envUp [⟨idA, "a", 5⟩] ⟨"GET", "0102030405060708090aabf", Body.members ()⟩).resp.status = 400 ∧
    (updateUserHandler envUp [⟨idA, "a", 5⟩]
      ⟨"GET", "0102030405060708090aabf", .members ⟨none, some "b", none⟩⟩).coll = [⟨idA, "a", 5⟩] :=
  have h := bad_id_rejected envUp [⟨idA, "a", 5⟩] "0102030405060708090aabf"
    (Or.inr (Or.inl (by decide))) "GET" (Body.members ()) (.members ⟨none, some "b", none⟩)
  ⟨h.1.1, h.2.1.2.2⟩

/-- C3: when the body is not decodable for the target struct, the handlers for
add and update (whatever the id parameter) and the echo handler on POST answer
400, issue no driver call and leave the collection as it was. -/
theorem malformed_body_rejected (env : Env) (coll : Collection) (m s : String) :
    ((addUserHandler env coll ⟨m, s, .malformed⟩).resp.status = 400 ∧
      (addUserHandler env coll ⟨m, s, .malformed⟩).calls = [] ∧
      (addUserHandler env coll ⟨m, s, .malformed⟩).coll = coll) ∧
    ((updateUserHandler env coll ⟨m, s, .malformed⟩).resp.status = 400 ∧
      (updateUserHandler env coll ⟨m, s, .malformed⟩).calls = [] ∧
      (updateUserHandler env coll ⟨m, s, .malformed⟩).coll = coll) ∧
    ((handler env coll ⟨"POST", s, .malformed⟩).resp.status = 400 ∧
      (handler env coll ⟨"POST", s, .malformed⟩).calls = [] ∧
      (handler env coll ⟨"POST", s, .malformed⟩).coll = coll) := by
  refine ⟨?_, ?_, ?_⟩
  · simp [addUserHandler, decodeUser, httpError, StatusBadRequest]
  · by_cases he : s = ""
    · simp [updateUserHandler, he, httpError, StatusBadRequest]
    · cases hid : ObjectIDFromHex s <;>
        simp [updateUserHandler, he, hid, decodeUser, httpError, StatusBadRequest]
  · simp [handler, decodeRequestData, sendResponse, StatusBadRequest]

/-! ## Lookup by id -/

theorem find?_eq_none_iff_not_stored (coll : Collection) (oid : ObjectID) :
    coll.find? (fun d => decide (d.ID = oid)) = none ↔ oid ∉ coll.map User.ID := by
  simp only [List.find?_eq_none, decide_eq_true_eq, List.mem_map, not_exists, not_and]

theorem find?_some_stored (coll : Collection) (oid : ObjectID) (u : User)
    (h : coll.find? (fun d => decide (d.ID = oid)) = some u) : u ∈ coll ∧ u.ID = oid := by
  refine ⟨List.mem_of_find?_eq_some h, ?_⟩
  simpa using List.find?_some h

/-- C5: for an id string of exactly 24 hexadecimal characters the lookup
handler never answers 400; it answers 404 exactly when the lookup reports that
no document has the id, 500 exactly when the lookup fails with another error,
and otherwise 200 with the stored user of that id.  For an id that no stored
document has, the answer is 404 once the lookup itself completes. -/
theorem getUserByID_statuses {F : Type} (env : Env) (coll : Collection) (r : Request F)
    (hw : WellFormedID r.id) :
    ∃ oid, ObjectIDFromHex r.id = .ok oid ∧
      (getUserByIDHandler env coll r).resp.status ≠ 400 ∧
      ((getUserByIDHandler env coll r).resp.status = 404 ↔
        FindOne env coll oid = .error .ErrNoDocuments) ∧
      ((getUserByIDHandler env coll r).resp.status = 500 ↔
        ∃ e, e ≠ DbError.ErrNoDocuments ∧ FindOne env coll oid = .error e) ∧
      ((getUserByIDHandler env coll r).resp.status = 200 ↔
        ∃ u, FindOne env coll oid = .ok u) ∧
      (∀ u, FindOne env coll oid = .ok u →
        (getUserByIDHandler env coll r).resp = { status := 200, body := .user u } ∧
        u ∈ coll ∧ u.ID = oid) ∧
      (oid ∉ coll.map User.ID → env.dbFails = false →
        (getUserByIDHandler env coll r).resp.status = 404) := by
  obtain ⟨oid, hoid⟩ := (ObjectIDFromHex_ok_iff r.id).mpr hw
  have hne : r.id ≠ "" := by
    intro h0
    have := hw.1
    rw [h0] at this
    exact absurd this (by decide)
  refine ⟨oid, hoid, ?_⟩
  cases hf : FindOne env coll oid with
  | error e =>
    cases e <;>
      simp [getUserByIDHandler, hne, hoid, hf, httpError, StatusNotFound,
        StatusInternalServerError] <;>
      (intro hns
       have hnone := (find?_eq_none_iff_not_stored coll oid).mpr
         (by simpa only [List.mem_map, not_exists, not_and] using hns)
       by_contra hup
       simp [FindOne, hup, hnone] at hf)
  | ok u =>
    have hfind : coll.find? (fun d => decide (d.ID = oid)) = some u := by
      unfold FindOne at hf
      split_ifs at hf
      split at hf
      · cases hf
      · next d hd => cases hf; exact hd
    have hst := find?_some_stored coll oid u hfind
    have hmem : oid ∈ coll.map User.ID := List.mem_map.mpr ⟨u, hst.1, hst.2⟩
    simp [getUserByIDHandler, hne, hoid, hf, StatusOK, hst.1, hst.2]
    intro hns
    exact absurd hst.2 (hns u hst.1)

/-- A well-formed id is never answered with 400, here on the empty collection. -/
theorem getUserByID_statuses_witness :
    WellFormedID "0102030405060708090aabff" ∧
    ∃ oid, ObjectIDFromHex "0102030405060708090aabff" = .ok oid ∧
      (getUserByIDHandler envUp [] ⟨"GET", "0102030405060708090aabff", Body.members ()⟩).resp.status
        ≠ 400 :=
  ⟨by decide,
   let ⟨oid, h1, h2, _⟩ := getUserByID_statuses envUp []
     ⟨"GET", "0102030405060708090aabff", Body.members ()⟩ (by decide)
   ⟨oid, h1, h2⟩⟩

/-! ## Delete and update -/

theorem map_ID_eraseP (coll : Collection) (oid : ObjectID) :
    (coll.eraseP (fun d => decide (d.ID = oid))).map User.ID = (coll.map User.ID).erase oid := by
  induction coll with
  | nil => rfl
  | cons d ds ih =>
    by_cases h : d.ID = oid
    · simp [List.eraseP_cons, h]
    · simp [List.eraseP_cons, h, List.erase_cons, ih]

theorem mem_eraseP_iff (coll : Collection) (hv : coll.Valid) (oid : ObjectID) (u : User) :
    u ∈ coll.eraseP (fun d => decide (d.ID = oid)) ↔ u ∈ coll ∧ u.ID ≠ oid := by
  induction coll with
  | nil => simp
  | cons d ds ih =>
    have hv' : Collection.Valid ds := (List.nodup_cons.mp hv).2
    have hd : d.ID ∉ ds.map User.ID := (List.nodup_cons.mp hv).1
    by_cases h : d.ID = oid
    · have he : (d :: ds).eraseP (fun d => decide (d.ID = oid)) = ds := by
        simp [List.eraseP_cons, h]
      rw [he, List.mem_cons]
      constructor
      · intro hu
        refine ⟨Or.inr hu, fun hne => hd ?_⟩
        rw [h, ← hne]
        exact List.mem_map_of_mem _ hu
      · rintro ⟨hu | hu, hne⟩
        · exact absurd (hu ▸ h) hne
        · exact hu
    · have he : (d :: ds).eraseP (fun d => decide (d.ID = oid)) =
          d :: ds.eraseP (fun d => decide (d.ID = oid)) := by
        simp [List.eraseP_cons, h]
      rw [he, List.mem_cons, List.mem_cons, ih hv']
      constructor
      · rintro (hu | ⟨hu, hne⟩)
        · exact ⟨Or.inl hu, hu ▸ h⟩
        · exact ⟨Or.inr hu, hne⟩
      · rintro ⟨hu | hu, hne⟩
        · exact Or.inl hu
        · exact Or.inr ⟨hu, hne⟩

theorem valid_eraseP (coll : Collection) (hv : coll.Valid) (oid : ObjectID) :
    Collection.Valid (coll.eraseP (fun d => decide (d.ID = oid))) := by
  unfold Collection.Valid at *
  rw [map_ID_eraseP]
  exact hv.erase oid

theorem not_stored_after_eraseP (coll : Collection) (hv : coll.Valid) (oid : ObjectID) :
    oid ∉ (coll.eraseP (fun d => decide (d.ID = oid))).map User.ID := by
  intro h
  obtain ⟨u, hu, hid⟩ := List.mem_map.mp h
  exact ((mem_eraseP_iff coll hv oid u).mp hu).2 hid

/-- C7: on a collection with unique ids, when delete on a well-formed id answers
200, the lookup of the same id that follows at once (the database being as
reachable as it was for the delete) answers 404, whether or not the id was
stored before.  A later lookup never answers 200, and answers 404 unless the
lookup itself fails. -/
theorem get_after_delete {F G : Type} (env env' : Env) (coll : Collection) (hv : coll.Valid)
    (r : Request F) (r' : Request G) (hw : WellFormedID r.id) (hid : r'.id = r.id)
    (hdel : (deleteUserHandler env coll r).resp.status = 200) :
    (getUserByIDHandler env (deleteUserHandler env coll r).coll r').resp.status = 404 ∧
    (getUserByIDHandler env' (deleteUserHandler env coll r).coll r').resp.status ≠ 200 ∧
    (env'.dbFails = false →
      (getUserByIDHandler env' (deleteUserHandler env coll r).coll r').resp.status = 404) := by
  obtain ⟨oid, hoid⟩ := (ObjectIDFromHex_ok_iff r.id).mpr hw
  have hne : r.id ≠ "" := by
    intro h0
    have := hw.1
    rw [h0] at this
    exact absurd this (by decide)
  have hreach : env.dbFails = false := by
    cases hup : env.dbFails
    · rfl
    · simp [deleteUserHandler, hne, hoid, DeleteOne, hup, httpError,
        StatusInternalServerError] at hdel
  have hcoll : (deleteUserHandler env coll r).coll =
      coll.eraseP (fun d => decide (d.ID = oid)) := by
    simp [deleteUserHandler, hne, hoid, DeleteOne, hreach]
  rw [hcoll]
  have hns := not_stored_after_eraseP coll hv oid
  have hnone := (find?_eq_none_iff_not_stored _ oid).mpr hns
  refine ⟨?_, ?_⟩
  · simp [getUserByIDHandler, hid, hne, hoid, FindOne, hreach, hnone, httpError, StatusNotFound]
  · cases hup : env'.dbFails <;>
      simp [getUserByIDHandler, hid, hne, hoid, FindOne, hup, hnone, httpError, StatusNotFound,
        StatusInternalServerError]

/-- Delete then lookup of a stored id: 200 then 404. -/
theorem get_after_delete_witness :
    (deleteUserHandler envUp [⟨idA, "a", 5⟩]
      ⟨"DELETE", "0102030405060708090aabff", Body.members ()⟩).resp.status = 200 ∧
    (getUserByIDHandler envUp
      (deleteUserHandler envUp [⟨idA, "a", 5⟩]
        ⟨"DELETE", "0102030405060708090aabff", Body.members ()⟩).coll
      ⟨"GET", "0102030405060708090aabff", Body.members ()⟩).resp.status = 404 :=
  ⟨by decide,
   (get_after_delete envUp envUp [⟨idA, "a", 5⟩] (by decide)
     ⟨"DELETE", "0102030405060708090aabff", Body.members ()⟩
     ⟨"GET", "0102030405060708090aabff", Body.members ()⟩ (by decide) rfl (by decide)).1⟩

theorem id_ne_empty_of_ok (s : String) (oid : ObjectID) (h : ObjectIDFromHex s = .ok oid) :
    s ≠ "" := by
  intro h0
  have he : ObjectIDFromHex "" = .error "ErrInvalidHex" := by decide
  rw [h0, he] at h
  cases h

theorem any_ID_eq_false (coll : Collection) (oid : ObjectID) (h : oid ∉ coll.map User.ID) :
    coll.any (fun d => decide (d.ID = oid)) = false := by
  rw [List.any_eq_false]
  intro d hd
  simp only [decide_eq_true_eq]
  exact fun he => h (List.mem_map.mpr ⟨d, hd, he⟩)

theorem any_ID_eq_true (coll : Collection) (oid : ObjectID) (h : oid ∈ coll.map User.ID) :
    coll.any (fun d => decide (d.ID = oid)) = true := by
  obtain ⟨d, hd, he⟩ := List.mem_map.mp h
  exact List.any_eq_true.mpr ⟨d, hd, by simpa using he⟩

theorem map_ID_setFirst (oid : ObjectID) (p : User) (coll : Collection) :
    (setFirst oid p coll).map User.ID = coll.map User.ID := by
  induction coll with
  | nil => rfl
  | cons d ds ih =>
    by_cases h : d.ID = oid
    · simp [setFirst, h]
    · simp [setFirst, h, ih]

theorem mem_setFirst_iff (oid : ObjectID) (p : User) (coll : Collection) (hv : coll.Valid)
    (v : User) :
    v ∈ setFirst oid p coll ↔
      (v ∈ coll ∧ v.ID ≠ oid) ∨
      (oid ∈ coll.map User.ID ∧ v = { ID := oid, Name := p.Name, Age := p.Age }) := by
  induction coll with
  | nil => simp [setFirst]
  | cons d ds ih =>
    have hv' : Collection.Valid ds := (List.nodup_cons.mp hv).2
    have hd : d.ID ∉ ds.map User.ID := (List.nodup_cons.mp hv).1
    by_cases h : d.ID = oid
    · have hs : setFirst oid p (d :: ds) = { ID := oid, Name := p.Name, Age := p.Age } :: ds := by
        simp [setFirst, h]
      rw [hs, List.mem_cons]
      constructor
      · rintro (hu | hu)
        · exact Or.inr ⟨by simp [h], hu⟩
        · refine Or.inl ⟨List.mem_cons_of_mem _ hu, fun hne => hd ?_⟩
          rw [h, ← hne]
          exact List.mem_map_of_mem _ hu
      · rintro (⟨hu, hne⟩ | ⟨_, hu⟩)
        · rcases List.mem_cons.mp hu with hu | hu
          · exact absurd (hu ▸ h) hne
          · exact Or.inr hu
        · exact Or.inl hu
    · have hs : setFirst oid p (d :: ds) = d :: setFirst oid p ds := by
        simp [setFirst, h]
      rw [hs, List.mem_cons, ih hv']
      constructor
      · rintro (hu | ⟨hu, hne⟩ | ⟨hm, hu⟩)
        · exact Or.inl ⟨by simp [hu], hu ▸ h⟩
        · exact Or.inl ⟨List.mem_cons_of_mem _ hu, hne⟩
        · exact Or.inr ⟨by simp [hm], hu⟩
      · rintro (⟨hu, hne⟩ | ⟨hm, hu⟩)
        · rcases List.mem_cons.mp hu with hu | hu
          · exact Or.inl hu
          · exact Or.inr (Or.inl ⟨hu, hne⟩)
        · refine Or.inr (Or.inr ⟨?_, hu⟩)
          rcases List.mem_cons.mp hm with hm | hm
          · exact absurd hm.symm h
          · exact hm

theorem setFirst_of_not_stored (oid : ObjectID) (p : User) (coll : Collection)
    (h : oid ∉ coll.map User.ID) : setFirst oid p coll = coll := by
  induction coll with
  | nil => rfl
  | cons d ds ih =>
    have hd : d.ID ≠ oid := fun he => h (by simp [he])
    have hds : oid ∉ ds.map User.ID := fun hm => h (by simp at hm ⊢; exact Or.inr hm)
    simp [setFirst, hd, ih hds]

theorem UpdateOne_ok (env : Env) (coll c : Collection) (oid : ObjectID) (p : User)
    (h : UpdateOne env coll oid p = .ok c) : c = setFirst oid p coll := by
  unfold UpdateOne at h
  split_ifs at h with hup hany
  · split at h
    · split_ifs at h
      cases h; rfl
    · cases h; rfl
  · cases h
    have hns : oid ∉ coll.map User.ID := by
      intro hm
      exact hany (any_ID_eq_true coll oid hm)
    exact (setFirst_of_not_stored oid p coll hns).symm

theorem DeleteOne_ok (env : Env) (coll c : Collection) (oid : ObjectID)
    (h : DeleteOne env coll oid = .ok c) : c = coll.eraseP (fun d => decide (d.ID = oid)) := by
  unfold DeleteOne at h
  split_ifs at h
  cases h; rfl

theorem InsertOne_ok (env : Env) (coll c : Collection) (p : User) (i : ObjectID)
    (h : InsertOne env coll p = .ok (i, c)) :
    i = (bsonID p).getD env.newObjectID ∧ i ∉ coll.map User.ID ∧
      c = coll ++ [{ ID := i, Name := p.Name, Age := p.Age }] := by
  by_cases hup : env.dbFails = true
  · simp [InsertOne, hup] at h
  · by_cases hst : (bsonID p).getD env.newObjectID ∈ coll.map User.ID
    · have hany := any_ID_eq_true coll _ hst
      simp only [InsertOne, hup, hany, if_true, if_false] at h
      cases h
    · have hany := any_ID_eq_false coll _ hst
      simp only [InsertOne, hup, hany, if_false, Bool.false_eq_true, Except.ok.injEq,
        Prod.mk.injEq] at h
      obtain ⟨h1, h2⟩ := h
      subst h1
      exact ⟨rfl, hst, h2.symm⟩

theorem updateUserHandler_eq (env : Env) (coll : Collection) (r : Request UserMembers)
    (oid : ObjectID) (p : User) (hoid : ObjectIDFromHex r.id = .ok oid)
    (hp : decodeUser User.zero r.Body = .ok p) :
    updateUserHandler env coll r =
      match UpdateOne env coll oid p with
      | .error _ =>
        { resp := httpError "Ошибка при обновлении пользователя" StatusInternalServerError,
          coll := coll, calls := [.UpdateOne oid p], stdout := [] }
      | .ok coll' =>
        { resp := { status := StatusOK, body := .text "Пользователь обновлен" },
          coll := coll', calls := [.UpdateOne oid p], stdout := [] } := by
  simp only [updateUserHandler, id_ne_empty_of_ok _ _ hoid, hoid, hp, if_false]

theorem deleteUserHandler_eq {F : Type} (env : Env) (coll : Collection) (r : Request F)
    (oid : ObjectID) (hoid : ObjectIDFromHex r.id = .ok oid) :
    deleteUserHandler env coll r =
      match DeleteOne env coll oid with
      | .error _ =>
        { resp := httpError "Ошибка при удалении пользователя" StatusInternalServerError,
          coll := coll, calls := [.DeleteOne oid], stdout := [] }
      | .ok coll' =>
        { resp := { status := StatusOK, body := .text "Пользователь удален" },
          coll := coll', calls := [.DeleteOne oid], stdout := [] } := by
  simp only [deleteUserHandler, id_ne_empty_of_ok _ _ hoid, hoid, if_false]

theorem addUserHandler_eq (env : Env) (coll : Collection) (r : Request UserMembers)
    (p : User) (hp : decodeUser User.zero r.Body = .ok p) :
    addUserHandler env coll r =
      match InsertOne env coll p with
      | .error _ =>
        { resp := httpError "Ошибка при добавлении пользователя в MongoDB"
            StatusInternalServerError,
          coll := coll, calls := [.InsertOne p], stdout := [] }
      | .ok (insertedID, coll') =>
        { resp := { status := StatusCreated, body := .insertedID insertedID },
          coll := coll', calls := [.InsertOne p], stdout := [] } := by
  simp only [addUserHandler, hp]

/-- C8: on a collection with unique ids, when update with the id of a stored
user and a decodable body answers 200, the stored document of that id has the
decoded name and age afterwards, a member absent from the body being
overwritten with the zero value; the other documents are as before. -/
theorem update_replaces_fields (env : Env) (coll : Collection) (hv : coll.Valid)
    (r : Request UserMembers) (u : User) (m : UserMembers)
    (hu : u ∈ coll) (hid : r.id = u.ID.Hex) (hb : r.Body = .members m)
    (hok : (updateUserHandler env coll r).resp.status = 200) :
    ({ ID := u.ID, Name := m.name.getD "", Age := m.age.getD 0 } : User) ∈
        (updateUserHandler env coll r).coll ∧
    (∀ v ∈ (updateUserHandler env coll r).coll, v.ID = u.ID →
        v.Name = m.name.getD "" ∧ v.Age = m.age.getD 0) ∧
    (∀ v, v.ID ≠ u.ID → (v ∈ (updateUserHandler env coll r).coll ↔ v ∈ coll)) := by
  have hoid : ObjectIDFromHex r.id = .ok u.ID := by rw [hid]; exact ObjectIDFromHex_Hex u.ID
  have hst : u.ID ∈ coll.map User.ID := List.mem_map_of_mem _ hu
  have hp : decodeUser User.zero r.Body =
      .ok { ID := m.id.getD NilObjectID, Name := m.name.getD "", Age := m.age.getD 0 } := by
    rw [hb]; rfl
  have hcoll : (updateUserHandler env coll r).coll =
      setFirst u.ID { ID := m.id.getD NilObjectID, Name := m.name.getD "", Age := m.age.getD 0 }
        coll := by
    rw [updateUserHandler_eq env coll r _ _ hoid hp] at hok ⊢
    cases hU : UpdateOne env coll u.ID
        { ID := m.id.getD NilObjectID, Name := m.name.getD "", Age := m.age.getD 0 } with
    | error e =>
      rw [hU] at hok
      simp [httpError, StatusInternalServerError] at hok
    | ok c => exact UpdateOne_ok _ _ _ _ _ hU
  rw [hcoll]
  refine ⟨?_, ?_, ?_⟩
  · exact (mem_setFirst_iff _ _ coll hv _).mpr (Or.inr ⟨hst, rfl⟩)
  · intro v hvm hvid
    rcases (mem_setFirst_iff _ _ coll hv v).mp hvm with ⟨_, hne'⟩ | ⟨_, hveq⟩
    · exact absurd hvid hne'
    · rw [hveq]; exact ⟨rfl, rfl⟩
  · intro v hvid
    rw [mem_setFirst_iff _ _ coll hv v]
    constructor
    · rintro (⟨h1, _⟩ | ⟨_, h2⟩)
      · exact h1
      · exact absurd (by rw [h2]) hvid
    · exact fun h1 => Or.inl ⟨h1, hvid⟩

/-- The example of the specification: the stored user with name "a" and age 5,
updated with a body that carries only the name "b", is left with name "b" and
age 0. -/
theorem update_replaces_fields_witness :
    (updateUserHandler envUp [⟨idA, "a", 5⟩]
      ⟨"PUT", "0102030405060708090aabff", .members ⟨none, some "b", none⟩⟩).coll =
        [⟨idA, "b", 0⟩] ∧
    (⟨idA, "b", 0⟩ : User) ∈ (updateUserHandler envUp [⟨idA, "a", 5⟩]
      ⟨"PUT", "0102030405060708090aabff", .members ⟨none, some "b", none⟩⟩).coll :=
  ⟨by decide,
   (update_replaces_fields envUp [⟨idA, "a", 5⟩] (by decide)
     ⟨"PUT", "0102030405060708090aabff", .members ⟨none, some "b", none⟩⟩ ⟨idA, "a", 5⟩
     ⟨none, some "b", none⟩ (by decide) (by decide) rfl (by decide)).1⟩

theorem eraseP_of_not_stored (coll : Collection) (oid : ObjectID) (h : oid ∉ coll.map User.ID) :
    coll.eraseP (fun d => decide (d.ID = oid)) = coll := by
  apply List.eraseP_of_forall_not
  intro d hd
  simp only [decide_eq_true_eq]
  exact fun he => h (List.mem_map.mpr ⟨d, hd, he⟩)

/-- C9: for a well-formed id that no stored document has (and, for update, a
decodable body), update and delete leave the collection as it was, answer 200
with the confirmation text (the one every 200 answer of the handler carries)
when the driver call reports no error, and answer 500 exactly when the driver
call reports an error, which here is exactly when the database fails. -/
theorem unmatched_update_delete {F : Type} (env : Env) (coll : Collection)
    (ru : Request UserMembers) (rd : Request F) (oid : ObjectID) (p : User)
    (hu : ObjectIDFromHex ru.id = .ok oid) (hd : ObjectIDFromHex rd.id = .ok oid)
    (hp : decodeUser User.zero ru.Body = .ok p) (hns : oid ∉ coll.map User.ID) :
    ((updateUserHandler env coll ru).coll = coll ∧
      ((∃ c, UpdateOne env coll oid p = .ok c) →
        (updateUserHandler env coll ru).resp =
          { status := 200, body := .text "Пользователь обновлен" }) ∧
      ((updateUserHandler env coll ru).resp.status = 500 ↔
        ∃ e, UpdateOne env coll oid p = .error e) ∧
      ((updateUserHandler env coll ru).resp.status = 500 ↔ env.dbFails = true) ∧
      (∀ (env' : Env) (coll' : Collection), (updateUserHandler env' coll' ru).resp.status = 200 →
        (updateUserHandler env' coll' ru).resp.body = .text "Пользователь обновлен")) ∧
    ((deleteUserHandler env coll rd).coll = coll ∧
      ((∃ c, DeleteOne env coll oid = .ok c) →
        (deleteUserHandler env coll rd).resp =
          { status := 200, body := .text "Пользователь удален" }) ∧
      ((deleteUserHandler env coll rd).resp.status = 500 ↔
        ∃ e, DeleteOne env coll oid = .error e) ∧
      ((deleteUserHandler env coll rd).resp.status = 500 ↔ env.dbFails = true) ∧
      (∀ (env' : Env) (coll' : Collection), (deleteUserHandler env' coll' rd).resp.status = 200 →
        (deleteUserHandler env' coll' rd).resp.body = .text "Пользователь удален")) := by
  have hany := any_ID_eq_false coll oid hns
  have hU : UpdateOne env coll oid p =
      if env.dbFails then .error .unavailable else .ok coll := by
    simp only [UpdateOne, hany, Bool.false_eq_true, if_false]
  have hD : DeleteOne env coll oid =
      if env.dbFails then .error .unavailable else .ok coll := by
    simp only [DeleteOne, eraseP_of_not_stored coll oid hns]
  constructor
  · refine ⟨?_, ?_, ?_, ?_, ?_⟩
    · rw [updateUserHandler_eq env coll ru oid p hu hp, hU]
      cases env.dbFails <;> rfl
    · rw [updateUserHandler_eq env coll ru oid p hu hp, hU]
      cases env.dbFails <;> simp [StatusOK]
    · rw [updateUserHandler_eq env coll ru oid p hu hp, hU]
      cases env.dbFails <;> simp [StatusOK, httpError, StatusInternalServerError]
    · rw [updateUserHandler_eq env coll ru oid p hu hp, hU]
      cases env.dbFails <;> simp [StatusOK, httpError, StatusInternalServerError]
    · intro env' coll'
      rw [updateUserHandler_eq env' coll' ru oid p hu hp]
      cases UpdateOne env' coll' oid p <;> simp [httpError, StatusInternalServerError]
  · refine ⟨?_, ?_, ?_, ?_, ?_⟩
    · rw [deleteUserHandler_eq env coll rd oid hd, hD]
      cases env.dbFails <;> rfl
    · rw [deleteUserHandler_eq env coll rd oid hd, hD]
      cases env.dbFails <;> simp [StatusOK]
    · rw [deleteUserHandler_eq env coll rd oid hd, hD]
      cases env.dbFails <;> simp [StatusOK, httpError, StatusInternalServerError]
    · rw [deleteUserHandler_eq env coll rd oid hd, hD]
      cases env.dbFails <;> simp [StatusOK, httpError, StatusInternalServerError]
    · intro env' coll'
      rw [deleteUserHandler_eq env' coll' rd oid hd]
      cases DeleteOne env' coll' oid <;> simp [httpError, StatusInternalServerError]

/-- Update and delete of the id of `idB` on a collection that stores only `idA`:
both answer 200 and the collection is as before. -/
theorem unmatched_update_delete_witness :
    (updateUserHandler envUp [⟨idA, "a", 5⟩]
      ⟨"PUT", "111111111111111111111111", .members ⟨none, some "b", none⟩⟩).resp =
        { status := 200, body := .text "Пользователь обновлен" } ∧
    (deleteUserHandler envUp [⟨idA, "a", 5⟩]
      ⟨"DELETE", "111111111111111111111111", Body.members ()⟩).coll = [⟨idA, "a", 5⟩] :=
  have h := unmatched_update_delete envUp [⟨idA, "a", 5⟩]
    ⟨"PUT", "111111111111111111111111", .members ⟨none, some "b", none⟩⟩
    ⟨"DELETE", "111111111111111111111111", Body.members ()⟩ idB ⟨NilObjectID, "b", 0⟩
    (by decide) (by decide) (by decide) (by decide)
  ⟨h.1.2.1 ⟨[⟨idA, "a", 5⟩], by decide⟩, h.2.1⟩

/-! ## Add then lookup -/

theorem find?_append_new (coll : Collection) (u : User) (h : u.ID ∉ coll.map User.ID) :
    (coll ++ [u]).find? (fun d => decide (d.ID = u.ID)) = some u := by
  rw [List.find?_append, (find?_eq_none_iff_not_stored coll u.ID).mpr h]
  simp

/-- C4: when add answers 201 with identifier `i`, the lookup with the
hexadecimal form of `i` that follows at once (the database being as reachable
as it was for the add) answers 200 with the user of id `i` and the name and
age of the payload.  A later lookup never answers 404, and answers the same
unless the lookup itself fails.  A payload without id (zero id) gets the
generated id; a payload with a non-zero id keeps it. -/
theorem get_after_add {F : Type} (env env' : Env) (coll : Collection)
    (r : Request UserMembers) (r' : Request F) (i : ObjectID) (p : User)
    (hp : decodeUser User.zero r.Body = .ok p)
    (hadd : (addUserHandler env coll r).resp = { status := 201, body := .insertedID i })
    (hid : r'.id = i.Hex) :
    (getUserByIDHandler env (addUserHandler env coll r).coll r').resp =
      { status := 200, body := .user { ID := i, Name := p.Name, Age := p.Age } } ∧
    (getUserByIDHandler env' (addUserHandler env coll r).coll r').resp.status ≠ 404 ∧
    (env'.dbFails = false →
      (getUserByIDHandler env' (addUserHandler env coll r).coll r').resp =
        { status := 200, body := .user { ID := i, Name := p.Name, Age := p.Age } }) ∧
    (p.ID = NilObjectID → i = env.newObjectID) ∧
    (p.ID ≠ NilObjectID → i = p.ID) := by
  have hoid : ObjectIDFromHex r'.id = .ok i := by rw [hid]; exact ObjectIDFromHex_Hex i
  have hne := id_ne_empty_of_ok _ _ hoid
  rw [addUserHandler_eq env coll r p hp] at hadd ⊢
  cases hI : InsertOne env coll p with
  | error e =>
    rw [hI] at hadd
    simp [httpError, StatusInternalServerError] at hadd
  | ok ic =>
    obtain ⟨j, c⟩ := ic
    rw [hI] at hadd
    simp only [Response.mk.injEq, Payload.insertedID.injEq] at hadd
    obtain ⟨_, hj⟩ := hadd
    subst hj
    obtain ⟨h1, h2, h3⟩ := InsertOne_ok _ _ _ _ _ hI
    have hfind := find?_append_new coll { ID := j, Name := p.Name, Age := p.Age } h2
    have hreach : env.dbFails = false := by
      cases hup : env.dbFails
      · rfl
      · simp [InsertOne, hup] at hI
    simp only [h3]
    refine ⟨?_, ?_, ?_, ?_, ?_⟩
    · simp [getUserByIDHandler, hne, hoid, FindOne, hreach, hfind, StatusOK]
    · cases hup : env'.dbFails <;>
        simp [getUserByIDHandler, hne, hoid, FindOne, hup, hfind, StatusOK, httpError,
          StatusInternalServerError]
    · intro hup
      simp [getUserByIDHandler, hne, hoid, FindOne, hup, hfind, StatusOK]
    · intro hz
      rw [h1]; simp [bsonID, hz]
    · intro hz
      rw [h1]; simp [bsonID, hz]

/-- Add of a payload without id, then lookup of the generated id `idA`. -/
theorem get_after_add_witness :
    (getUserByIDHandler envUp
      (addUserHandler envUp [] ⟨"POST", "", .members ⟨none, some "a", some 5⟩⟩).coll
      ⟨"GET", "0102030405060708090aabff", Body.members ()⟩).resp =
        { status := 200, body := .user ⟨idA, "a", 5⟩ } :=
  (get_after_add envUp envUp [] ⟨"POST", "", .members ⟨none, some "a", some 5⟩⟩
    ⟨"GET", "0102030405060708090aabff", Body.members ()⟩ idA ⟨NilObjectID, "a", 5⟩
    (by decide) (by decide) (by decide)).1

/-! ## Sessions of adds and deletes -/

theorem valid_append_new (coll : Collection) (hv : coll.Valid) (u : User)
    (h : u.ID ∉ coll.map User.ID) : Collection.Valid (coll ++ [u]) := by
  unfold Collection.Valid at *
  rw [List.map_append, List.nodup_append]
  refine ⟨hv, by simp, ?_⟩
  intro a ha hb
  simp only [List.map_cons, List.map_nil, List.mem_singleton] at hb
  exact h (hb ▸ ha)

theorem event_cases (coll : Collection) (q : Req) (e : Event)
    (h : q.event (q.serve coll) = some e) :
    (∃ u, e = .added u ∧ u.ID ∉ coll.map User.ID ∧ (q.serve coll).coll = coll ++ [u]) ∨
    (∃ i, e = .deleted i ∧
      (q.serve coll).coll = coll.eraseP (fun d => decide (d.ID = i))) := by
  cases q with
  | add env r =>
    left
    simp only [Req.event, Req.serve] at h ⊢
    cases hp : decodeUser User.zero r.Body with
    | error x => simp [hp] at h
    | ok p =>
      have heq := addUserHandler_eq env coll r p hp
      simp only [heq] at h ⊢
      cases hI : InsertOne env coll p with
      | error x => simp [hp, hI, httpError] at h
      | ok ic =>
        obtain ⟨i, c⟩ := ic
        obtain ⟨_, h2, h3⟩ := InsertOne_ok _ _ _ _ _ hI
        simp only [hp, hI, StatusCreated, if_true, Option.some.injEq] at h
        exact ⟨_, h.symm, h2, h3⟩
  | delete env r =>
    right
    simp only [Req.event, Req.serve] at h ⊢
    cases hoid : ObjectIDFromHex r.id with
    | error x => simp [hoid] at h
    | ok i =>
      have heq := deleteUserHandler_eq env coll r i hoid
      simp only [heq] at h ⊢
      cases hD : DeleteOne env coll i with
      | error x => simp [hoid, hD, httpError, StatusInternalServerError, StatusOK] at h
      | ok c =>
        simp only [hoid, hD, StatusOK, if_true, Option.some.injEq] at h
        exact ⟨i, h.symm, DeleteOne_ok _ _ _ _ hD⟩
  | list env r => simp [Req.event] at h
  | get env r => simp [Req.event] at h
  | update env r => simp [Req.event] at h
  | echo env r => simp [Req.event] at h

theorem survives_cons_added (es : List Event) (u0 u : User) :
    Survives (Event.added u0 :: es) u ↔
      (u = u0 ∧ Event.deleted u.ID ∉ es) ∨ Survives es u := by
  unfold Survives
  constructor
  · rintro ⟨before, after, heq, hnd⟩
    cases before with
    | nil =>
      simp only [List.nil_append, List.cons.injEq, Event.added.injEq] at heq
      exact Or.inl ⟨heq.1.symm, heq.2 ▸ hnd⟩
    | cons b bs =>
      simp only [List.cons_append, List.cons.injEq] at heq
      exact Or.inr ⟨bs, after, heq.2, hnd⟩
  · rintro (⟨hu, hnd⟩ | ⟨before, after, heq, hnd⟩)
    · exact ⟨[], es, by simp [hu], hnd⟩
    · exact ⟨Event.added u0 :: before, after, by simp [heq], hnd⟩

theorem survives_cons_deleted (es : List Event) (i : ObjectID) (u : User) :
    Survives (Event.deleted i :: es) u ↔ Survives es u := by
  unfold Survives
  constructor
  · rintro ⟨before, after, heq, hnd⟩
    cases before with
    | nil => simp at heq
    | cons b bs =>
      simp only [List.cons_append, List.cons.injEq] at heq
      exact ⟨bs, after, heq.2, hnd⟩
  · rintro ⟨before, after, heq, hnd⟩
    exact ⟨Event.deleted i :: before, after, by simp [heq], hnd⟩

theorem session_members (qs : List Req) :
    ∀ (coll0 coll : Collection) (es : List Event), coll0.Valid →
      session coll0 qs = some (coll, es) →
      coll.Valid ∧
      ∀ u, u ∈ coll ↔ (u ∈ coll0 ∧ Event.deleted u.ID ∉ es) ∨ Survives es u := by
  induction qs with
  | nil =>
    intro coll0 coll es hv hs
    simp only [session, Option.some.injEq, Prod.mk.injEq] at hs
    obtain ⟨h1, h2⟩ := hs
    subst h1; subst h2
    refine ⟨hv, fun u => ?_⟩
    simp [Survives]
  | cons q qs ih =>
    intro coll0 coll es hv hs
    simp only [session] at hs
    cases he : q.event (q.serve coll0) with
    | none => simp [he] at hs
    | some e =>
      cases hrest : session (q.serve coll0).coll qs with
      | none => simp [he, hrest] at hs
      | some ces =>
        obtain ⟨c, es'⟩ := ces
        simp only [he, hrest, Option.some.injEq, Prod.mk.injEq] at hs
        obtain ⟨h1, h2⟩ := hs
        subst h1; subst h2
        rcases event_cases coll0 q e he with ⟨u0, hev, hnew, hcoll⟩ | ⟨i, hev, hcoll⟩
        · subst hev
          rw [hcoll] at hrest
          obtain ⟨hvc, hmem⟩ := ih _ _ _ (valid_append_new coll0 hv u0 hnew) hrest
          refine ⟨hvc, fun u => ?_⟩
          rw [hmem u, survives_cons_added]
          simp only [List.mem_append, List.mem_cons, List.not_mem_nil, or_false, not_or]
          constructor
          · rintro (⟨hu | hu, hnd⟩ | hs)
            · exact Or.inl ⟨hu, by simp, hnd⟩
            · exact Or.inr (Or.inl ⟨hu, hnd⟩)
            · exact Or.inr (Or.inr hs)
          · rintro (⟨hu, _, hnd⟩ | ⟨hu, hnd⟩ | hs)
            · exact Or.inl ⟨Or.inl hu, hnd⟩
            · exact Or.inl ⟨Or.inr hu, hnd⟩
            · exact Or.inr hs
        · subst hev
          rw [hcoll] at hrest
          obtain ⟨hvc, hmem⟩ := ih _ _ _ (valid_eraseP coll0 hv i) hrest
          refine ⟨hvc, fun u => ?_⟩
          rw [hmem u, survives_cons_deleted, mem_eraseP_iff coll0 hv i u]
          simp only [List.mem_cons, not_or, Event.deleted.injEq]
          constructor
          · rintro (⟨⟨hu, hne⟩, hnd⟩ | hs)
            · exact Or.inl ⟨hu, hne, hnd⟩
            · exact Or.inr hs
          · rintro (⟨hu, hne, hnd⟩ | hs)
            · exact Or.inl ⟨⟨hu, hne⟩, hnd⟩
            · exact Or.inr hs

theorem getUsersHandler_ok {F : Type} (env : Env) (coll : Collection) (r : Request F)
    (hok : (getUsersHandler env coll r).resp.status = 200) :
    (getUsersHandler env coll r).resp.body =
      match coll with
      | [] => .null
      | d :: ds => .users (d :: ds) := by
  cases hup : env.dbFails
  · cases hcf : env.cursorFails
    · cases coll <;> simp [getUsersHandler, Find, Cursor.All, hup, hcf, encodeUsers,
        UserSlice.empty]
    · simp [getUsersHandler, Find, Cursor.All, hup, hcf, httpError,
        StatusInternalServerError] at hok
  · simp [getUsersHandler, Find, hup, httpError, StatusInternalServerError] at hok

/-- C6 as amended: after a session of successful adds and deletes that starts
from the empty collection, a list request answered 200 carries the JSON
encoding of the result slice: when at least one user was added (with the
identifier the add returned) and not deleted afterwards, a JSON list without
repetition whose members are exactly those users; when none was, the JSON
value null. -/
theorem list_after_session {F : Type} (qs : List Req) (coll : Collection) (es : List Event)
    (env : Env) (r : Request F) (hs : session [] qs = some (coll, es))
    (hok : (getUsersHandler env coll r).resp.status = 200) :
    ((∃ u, Survives es u) ∧
      ∃ us, (getUsersHandler env coll r).resp.body = .users us ∧ us.Nodup ∧
        ∀ u, u ∈ us ↔ Survives es u) ∨
    ((∀ u, ¬ Survives es u) ∧ (getUsersHandler env coll r).resp.body = .null) := by
  obtain ⟨hv, hmem⟩ := session_members qs [] coll es (by simp [Collection.Valid]) hs
  have hmem' : ∀ u, u ∈ coll ↔ Survives es u := fun u => by rw [hmem u]; simp
  have hbody := getUsersHandler_ok env coll r hok
  cases coll with
  | nil =>
    right
    exact ⟨fun u hu => absurd ((hmem' u).mpr hu) (List.not_mem_nil u), hbody⟩
  | cons d ds =>
    left
    exact ⟨⟨d, (hmem' d).mp (List.mem_cons_self d ds)⟩, d :: ds, hbody,
      List.Nodup.of_map _ hv, hmem'⟩

/-- Two adds and one delete, then the list: only the second user is left, and
the answer is a JSON list. -/
theorem list_after_session_witness :
    ((∃ u, Survives [.added ⟨idA, "a", 5⟩, .added ⟨idB, "b", 7⟩, .deleted idA] u) ∧
      ∃ us, (getUsersHandler envUp [⟨idB, "b", 7⟩] ⟨"GET", "", Body.members ()⟩).resp.body =
          .users us ∧ us.Nodup ∧
        ∀ u, u ∈ us ↔
          Survives [.added ⟨idA, "a", 5⟩, .added ⟨idB, "b", 7⟩, .deleted idA] u) ∨
    ((∀ u, ¬ Survives [.added ⟨idA, "a", 5⟩, .added ⟨idB, "b", 7⟩, .deleted idA] u) ∧
      (getUsersHandler envUp [⟨idB, "b", 7⟩] ⟨"GET", "", Body.members ()⟩).resp.body = .null) :=
  list_after_session
    [.add envUp ⟨"POST", "", .members ⟨none, some "a", some 5⟩⟩,
     .add envUp ⟨"POST", "", .members ⟨some idB, some "b", some 7⟩⟩,
     .delete envUp ⟨"DELETE", "0102030405060708090aabff", Body.members ()⟩]
    [⟨idB, "b", 7⟩] [.added ⟨idA, "a", 5⟩, .added ⟨idB, "b", 7⟩, .deleted idA]
    envUp ⟨"GET", "", Body.members ()⟩ (by decide) (by decide)

/-- C6 as stated fails: after the session without requests, and after the
session that adds one user and deletes it, the list request is answered 200
with the JSON value null, which is not a JSON list. -/
theorem list_of_nothing_is_null :
    session [] [] = some ([], []) ∧
    (getUsersHandler envUp [] ⟨"GET", "", Body.members ()⟩).resp =
      { status := 200, body := .null } ∧
    session []
      [.add envUp ⟨"POST", "", .members ⟨none, some "a", some 5⟩⟩,
       .delete envUp ⟨"DELETE", "0102030405060708090aabff", Body.members ()⟩] =
      some ([], [.added ⟨idA, "a", 5⟩, .deleted idA]) ∧
    ¬ ∃ us, (getUsersHandler envUp [] ⟨"GET", "", Body.members ()⟩).resp.body = .users us :=
  ⟨by decide, by decide, by decide, by
    rintro ⟨us, h⟩
    have hnull : (getUsersHandler envUp [] ⟨"GET", "", Body.members ()⟩).resp.body = .null := by
      decide
    rw [hnull] at h
    cases h⟩

/-! ## The identifier invariant -/

theorem getUsersHandler_coll {F : Type} (env : Env) (coll : Collection) (r : Request F) :
    (getUsersHandler env coll r).coll = coll := by
  unfold getUsersHandler
  split
  · rfl
  · simp only
    split <;> rfl

theorem getUserByIDHandler_coll {F : Type} (env : Env) (coll : Collection) (r : Request F) :
    (getUserByIDHandler env coll r).coll = coll := by
  unfold getUserByIDHandler
  simp only
  split_ifs
  · rfl
  · split
    · rfl
    · split <;> rfl

theorem handler_coll (env : Env) (coll : Collection) (r : Request RequestDataMembers) :
    (handler env coll r).coll = coll := by
  unfold handler; split_ifs <;> [skip; rfl; rfl]
  split
  · rfl
  · split_ifs <;> rfl

theorem addUserHandler_coll (env : Env) (coll : Collection) (r : Request UserMembers) :
    (addUserHandler env coll r).coll = coll ∨
    ∃ u, u.ID ∉ coll.map User.ID ∧ (addUserHandler env coll r).coll = coll ++ [u] := by
  cases hp : decodeUser User.zero r.Body with
  | error x => left; simp only [addUserHandler, hp]
  | ok p =>
    rw [addUserHandler_eq env coll r p hp]
    cases hI : InsertOne env coll p with
    | error x => left; rfl
    | ok ic =>
      obtain ⟨i, c⟩ := ic
      obtain ⟨_, h2, h3⟩ := InsertOne_ok _ _ _ _ _ hI
      exact Or.inr ⟨_, h2, h3⟩

theorem updateUserHandler_ids (env : Env) (coll : Collection) (r : Request UserMembers) :
    (updateUserHandler env coll r).coll.map User.ID = coll.map User.ID := by
  by_cases he : r.id = ""
  · simp only [updateUserHandler, he, if_true]
  · cases hoid : ObjectIDFromHex r.id with
    | error x => simp only [updateUserHandler, he, hoid, if_false]
    | ok oid =>
      cases hp : decodeUser User.zero r.Body with
      | error x => simp only [updateUserHandler, he, hoid, hp, if_false]
      | ok p =>
        rw [updateUserHandler_eq env coll r oid p hoid hp]
        cases hU : UpdateOne env coll oid p with
        | error x => rfl
        | ok c =>
          rw [UpdateOne_ok _ _ _ _ _ hU]
          exact map_ID_setFirst oid p coll

theorem deleteUserHandler_ids {F : Type} (env : Env) (coll : Collection) (r : Request F) :
    (deleteUserHandler env coll r).coll = coll ∨
    ∃ i, (deleteUserHandler env coll r).coll.map User.ID = (coll.map User.ID).erase i := by
  by_cases he : r.id = ""
  · left; simp only [deleteUserHandler, he, if_true]
  · cases hoid : ObjectIDFromHex r.id with
    | error x => left; simp only [deleteUserHandler, he, hoid, if_false]
    | ok oid =>
      rw [deleteUserHandler_eq env coll r oid hoid]
      cases hD : DeleteOne env coll oid with
      | error x => left; rfl
      | ok c =>
        right
        rw [DeleteOne_ok _ _ _ _ hD]
        exact ⟨oid, map_ID_eraseP coll oid⟩

theorem serve_ids (coll : Collection) (q : Req) :
    (q.serve coll).coll.map User.ID = coll.map User.ID ∨
    (∃ i, i ∉ coll.map User.ID ∧ (q.serve coll).coll.map User.ID = coll.map User.ID ++ [i]) ∨
    (∃ i, (q.serve coll).coll.map User.ID = (coll.map User.ID).erase i) := by
  cases q with
  | list env r => left; simp only [Req.serve, getUsersHandler_coll]
  | get env r => left; simp only [Req.serve, getUserByIDHandler_coll]
  | echo env r => left; simp only [Req.serve, handler_coll]
  | update env r => left; simp only [Req.serve, updateUserHandler_ids]
  | add env r =>
    rcases addUserHandler_coll env coll r with h | ⟨u, hu, h⟩
    · left; simp only [Req.serve, h]
    · right; left
      exact ⟨u.ID, hu, by simp only [Req.serve, h, List.map_append, List.map_cons, List.map_nil]⟩
  | delete env r =>
    rcases deleteUserHandler_ids env coll r with h | ⟨i, h⟩
    · left; simp only [Req.serve, h]
    · right; right; exact ⟨i, h⟩

theorem serve_valid (coll : Collection) (hv : coll.Valid) (q : Req) :
    Collection.Valid (q.serve coll).coll := by
  unfold Collection.Valid at *
  rcases serve_ids coll q with h | ⟨i, hi, h⟩ | ⟨i, h⟩
  · rw [h]; exact hv
  · rw [h, List.nodup_append]
    refine ⟨hv, by simp, ?_⟩
    intro a ha hb
    simp only [List.mem_singleton] at hb
    exact hi (hb ▸ ha)
  · rw [h]; exact hv.erase i

theorem serveAll_valid (qs : List Req) :
    ∀ coll : Collection, coll.Valid → Collection.Valid (serveAll coll qs) := by
  induction qs with
  | nil => intro coll hv; exact hv
  | cons q qs ih =>
    intro coll hv
    exact ih _ (serve_valid coll hv q)

/-- C10 as amended: in every collection reachable from the empty one no two
stored users share an identifier; a request keeps the identifiers of the
stored users in place, except that an add may append one new identifier and a
delete may remove one; an add whose payload id (non-zero) is already stored
answers 500 and leaves the collection as it was; an update whose body carries a
non-zero id other than the query id leaves the collection as it was and
answers 500 when a stored document has the query id. -/
theorem identifier_invariant :
    (∀ coll, Reachable coll → coll.Valid) ∧
    (∀ (coll : Collection) (q : Req),
      (q.serve coll).coll.map User.ID = coll.map User.ID ∨
      (∃ i, i ∉ coll.map User.ID ∧ (q.serve coll).coll.map User.ID = coll.map User.ID ++ [i]) ∨
      (∃ i, (q.serve coll).coll.map User.ID = (coll.map User.ID).erase i)) ∧
    (∀ (env : Env) (coll : Collection) (r : Request UserMembers) (p : User),
      decodeUser User.zero r.Body = .ok p → p.ID ≠ NilObjectID → p.ID ∈ coll.map User.ID →
      (addUserHandler env coll r).resp.status = 500 ∧ (addUserHandler env coll r).coll = coll) ∧
    (∀ (env : Env) (coll : Collection) (r : Request UserMembers) (oid : ObjectID) (p : User),
      ObjectIDFromHex r.id = .ok oid → decodeUser User.zero r.Body = .ok p →
      p.ID ≠ NilObjectID → p.ID ≠ oid →
      (updateUserHandler env coll r).coll = coll ∧
      (oid ∈ coll.map User.ID → (updateUserHandler env coll r).resp.status = 500)) := by
  refine ⟨?_, serve_ids, ?_, ?_⟩
  · rintro coll ⟨qs, rfl⟩
    exact serveAll_valid qs [] (by simp [Collection.Valid])
  · intro env coll r p hp hnz hst
    have hb : bsonID p = some p.ID := by simp [bsonID, hnz]
    have hany := any_ID_eq_true coll p.ID hst
    rw [addUserHandler_eq env coll r p hp]
    cases hup : env.dbFails <;>
      simp [InsertOne, hup, hb, hany, httpError, StatusInternalServerError]
  · intro env coll r oid p hoid hp hnz hne
    have hb : bsonID p = some p.ID := by simp [bsonID, hnz]
    rw [updateUserHandler_eq env coll r oid p hoid hp]
    constructor
    · by_cases hst : oid ∈ coll.map User.ID
      · have hany := any_ID_eq_true coll oid hst
        cases hup : env.dbFails <;> simp [UpdateOne, hup, hb, hany, hne]
      · have hany := any_ID_eq_false coll oid hst
        cases hup : env.dbFails <;> simp [UpdateOne, hup, hany]
    · intro hst
      have hany := any_ID_eq_true coll oid hst
      cases hup : env.dbFails <;>
        simp [UpdateOne, hup, hb, hany, hne, httpError, StatusInternalServerError]

/-- An update of the stored `idA` whose body carries `idB` is answered 500 and
changes nothing. -/
theorem identifier_invariant_witness :
    (updateUserHandler envUp [⟨idA, "a", 5⟩]
      ⟨"PUT", "0102030405060708090aabff", .members ⟨some idB, some "b", none⟩⟩).coll =
        [⟨idA, "a", 5⟩] ∧
    (updateUserHandler envUp [⟨idA, "a", 5⟩]
      ⟨"PUT", "0102030405060708090aabff", .members ⟨some idB, some "b", none⟩⟩).resp.status =
        500 :=
  have h := identifier_invariant.2.2.2 envUp [⟨idA, "a", 5⟩]
    ⟨"PUT", "0102030405060708090aabff", .members ⟨some idB, some "b", none⟩⟩ idA
    ⟨idB, "b", 0⟩ (by decide) (by decide) (by decide) (by decide)
  ⟨h.1, h.2 (by decide)⟩

/-- C10 as stated fails: on the empty collection an update whose body carries
the non-zero id `idB`, other than the query id `idA`, is answered 200. -/
theorem update_other_id_unmatched_succeeds :
    ObjectIDFromHex "0102030405060708090aabff" = .ok idA ∧
    decodeUser User.zero (.members ⟨some idB, some "b", none⟩) = .ok ⟨idB, "b", 0⟩ ∧
    idB ≠ NilObjectID ∧ idB ≠ idA ∧ Reachable [] ∧
    (updateUserHandler envUp []
      ⟨"PUT", "0102030405060708090aabff", .members ⟨some idB, some "b", none⟩⟩).resp =
        { status := 200, body := .text "Пользователь обновлен" } :=
  ⟨by decide, by decide, by decide, by decide, ⟨[], rfl⟩, by decide⟩

end PizzaGoland
